import Mathlib

/-
Verification of the ACPI AML object-model and namespace-resolution core
(src/acpi/aml/namespace.rs): the AmlValue tagged union and its narrowing
accessors, the Method execution contract, and the namespace path
composition function get_namespace_string.

Rust strings are embedded as lists of characters; Rust u8/u32/u64/usize
are embedded as Nat (no arithmetic is performed on them here, so no
wrap-around modelling is needed); Result<T, AmlError> becomes
Except AmlError T; the global namespace threaded through the execution
context becomes explicit state passing.
-/

/-- Rust String, embedded as a list of characters. -/
abbrev RString := List Char

/-- Conversion from a Lean string literal to the embedded string type. -/
def str (s : String) : RString := s.data

/-- Rust str::starts_with for the embedded string type. -/
def starts_with : RString → RString → Bool
  | _, [] => true
  | [], _ :: _ => false
  | c :: s, p :: ps => c == p && starts_with s ps

/-- Rust str::ends_with for the embedded string type. -/
def ends_with (s suf : RString) : Bool :=
  starts_with s.reverse suf.reverse

/-- Modelled from the spec: the value-type-mismatch error raised by the
narrowing accessors. The AmlError enumeration itself lives outside the
given sources (super::AmlError); only this variant is used here. -/
inductive AmlError where
  | AmlValueError
deriving Repr, DecidableEq

/-- Modelled from the spec: the field-access descriptor (access width,
update rule, lock requirement) produced by the named-object decoder
(super::namedobj::FieldFlags, not among the given sources). -/
structure FieldFlags where
  accessType : Nat
  lockRule : Bool
  updateRule : Nat
deriving Repr, DecidableEq

/-- Modelled from the spec: the address-space tag enumeration (system
memory, system I/O, PCI configuration, embedded controller, SMBus, etc.)
produced by the named-object decoder (super::namedobj::RegionSpace, not
among the given sources). -/
inductive RegionSpace where
  | SystemMemory
  | SystemIo
  | PciConfig
  | EmbeddedControl
  | SMBus
  | OtherSpace
deriving Repr, DecidableEq

/-- Method: immutable record of argument count, serialized flag,
synchronization level and the method body byte sequence. -/
structure Method where
  arg_count : Nat
  serialized : Bool
  sync_level : Nat
  term_list : List Nat

/-- Accessor: a pair of hardware read and write operations bound to an
address space. read takes a usize offset to a 64-bit value; write takes
an offset and a 64-bit value. -/
structure Accessor where
  read : Nat → Nat
  write : Nat → Nat → Unit

/-- The manual Clone impl for Accessor: copies both function fields. -/
def Accessor.clone (a : Accessor) : Accessor :=
  { read := a.read, write := a.write }

mutual

/-- FieldSelector: how a field unit locates its backing storage. -/
inductive FieldSelector where
  | Region (region : RString)
  | Bank (region : RString) (bank_selector : AmlValue)
  | Index (index_selector : RString) (data_selector : RString)

/-- ObjectReference: the five ways AML can produce an indirection. -/
inductive ObjectReference where
  | ArgObj (n : Nat)
  | LocalObj (n : Nat)
  | NamedObj (path : RString)
  | Object (v : AmlValue)
  | Index (collection : AmlValue) (idx : AmlValue)

/-- AmlValue: the universal tagged union over every ACPI object kind. -/
inductive AmlValue where
  | None
  | Uninitialized
  | Buffer (b : List Nat)
  | BufferField (source_buf : AmlValue) (index : AmlValue) (length : AmlValue)
  | DDBHandle (idx : Nat)
  | DebugObject
  | Device (objs : List RString)
  | Event (e : Nat)
  | FieldUnit (selector : FieldSelector) (connection : AmlValue)
      (flags : FieldFlags) (offset : Nat) (length : Nat)
  | Integer (i : Nat)
  | IntegerConstant (i : Nat)
  | Method (m : Method)
  | Mutex (m : Nat × Option Nat)
  | ObjectReference (o : ObjectReference)
  | OperationRegion (region : RegionSpace) (offset : AmlValue) (len : AmlValue)
      (accessor : Accessor) (accessed_by : Option Nat)
  | Package (p : List AmlValue)
  | String (s : RString)
  | PowerResource (system_level : Nat) (resource_order : Nat) (obj_list : List RString)
  | Processor (proc_id : Nat) (p_blk : Option Nat) (obj_list : List RString)
  | RawDataBuffer (b : List Nat)
  | ThermalZone (obj_list : List RString)

end

/-- AmlValue::get_as_event. -/
def AmlValue.get_as_event : AmlValue → Except AmlError Nat
  | AmlValue.Event e => Except.ok e
  | _ => Except.error AmlError.AmlValueError

/-- AmlValue::get_as_string. -/
def AmlValue.get_as_string : AmlValue → Except AmlError RString
  | AmlValue.String s => Except.ok s
  | _ => Except.error AmlError.AmlValueError

/-- AmlValue::get_as_buffer. -/
def AmlValue.get_as_buffer : AmlValue → Except AmlError (List Nat)
  | AmlValue.Buffer b => Except.ok b
  | _ => Except.error AmlError.AmlValueError

/-- AmlValue::get_as_package. -/
def AmlValue.get_as_package : AmlValue → Except AmlError (List AmlValue)
  | AmlValue.Package p => Except.ok p
  | _ => Except.error AmlError.AmlValueError

/-- AmlValue::get_as_integer. Note: matches the IntegerConstant variant
only; the plain Integer variant is rejected. -/
def AmlValue.get_as_integer : AmlValue → Except AmlError Nat
  | AmlValue.IntegerConstant i => Except.ok i
  | _ => Except.error AmlError.AmlValueError

/-- Helper alias so that the Method structure can be named inside the
AmlValue namespace, where the AmlValue.Method constructor shadows it. -/
abbrev MethodRecord := Method

/-- AmlValue::get_as_method. -/
def AmlValue.get_as_method : AmlValue → Except AmlError MethodRecord
  | AmlValue.Method m => Except.ok m
  | _ => Except.error AmlError.AmlValueError

/-- get_namespace_string: namespace path composition. Faithful line by
line to the source: a non-string modifier returns current unchanged; an
empty current returns the modifier; an empty modifier returns current; a
modifier beginning with the root marker replaces current; the
parent-scope marker branch in the source is an empty TODO block that
falls through; otherwise current (with a dot pushed unless it already
ends with the root marker) is concatenated with the modifier. -/
def get_namespace_string (current : RString) (modifier_v : AmlValue) : RString :=
  match modifier_v.get_as_string with
  | Except.error _ => current
  | Except.ok modifier =>
    if current.length = 0 then
      modifier
    else if modifier.length = 0 then
      current
    else if starts_with modifier (str "\\") then
      modifier
    else
      -- the source tests starts_with "^" here with an empty TODO body:
      -- the branch has no effect and control falls through
      let ns := if !(ends_with current (str "\\")) then current ++ ['.'] else current
      ns ++ modifier

/-- Modelled from the spec: the terminal states interpretation can leave
the execution context in (super::parser::ExecutionState, not among the
given sources): normal fallthrough, explicit return with a value, or an
unresolved control-flow exit. -/
inductive ExecutionState where
  | NORMAL
  | RETURN (v : AmlValue)
  | EXIT

/-- Modelled from the spec: the execution-context abstraction
(super::parser::AmlExecutionContext, not among the given sources). It
carries the scope the method runs under, the argument slots, the shared
namespace (threaded explicitly here in place of the global tree), the
paths of namespace objects declared during this execution, and the
terminal state. -/
structure AmlExecutionContext where
  scope : RString
  arg_vars : List AmlValue
  namespace_objs : List (RString × AmlValue)
  namespace_delta : List RString
  state : ExecutionState

/-- Modelled from the spec: AmlExecutionContext::new, a fresh context
rooted at the given scope over the ambient namespace. -/
def AmlExecutionContext.new (scope : RString)
    (ns : List (RString × AmlValue)) : AmlExecutionContext :=
  { scope := scope
    arg_vars := []
    namespace_objs := ns
    namespace_delta := []
    state := ExecutionState.NORMAL }

/-- Modelled from the spec: AmlExecutionContext::init_arg_vars, binding
the parameters positionally into the argument slots. -/
def AmlExecutionContext.init_arg_vars (ctx : AmlExecutionContext)
    (parameters : List AmlValue) : AmlExecutionContext :=
  { ctx with arg_vars := parameters }

/-- Modelled from the spec: AmlExecutionContext::clean_namespace,
discarding every namespace object declared during this execution (the
paths recorded in namespace_delta). -/
def AmlExecutionContext.clean_namespace (ctx : AmlExecutionContext) : AmlExecutionContext :=
  { ctx with
    namespace_objs := ctx.namespace_objs.filter
      (fun e => !(decide (e.1 ∈ ctx.namespace_delta)))
    namespace_delta := [] }

/-- Lookup of a path in the namespace association list. -/
def namespace_get (ns : List (RString × AmlValue)) (path : RString) : Option AmlValue :=
  (ns.find? (fun e => e.1 == path)).map (fun e => e.2)

/-- Modelled from the spec: the type of the external bytecode
interpretation entry point (super::termlist::parse_term_list, not among
the given sources), taking the method body bytes and transforming the
execution context. Method::execute is proved for every interpreter of
this type. -/
abbrev Interp := List Nat → AmlExecutionContext → AmlExecutionContext

/-- Method::execute, parameterized by the external interpreter and with
the ambient namespace passed and returned explicitly: build a fresh
context at scope, bind the parameters, interpret the byte sequence,
unconditionally clean the namespace, then yield the RETURN value if the
terminal state is an explicit return and IntegerConstant 0 otherwise. -/
def Method.execute (interp : Interp) (m : Method) (scope : RString)
    (parameters : List AmlValue) (ns : List (RString × AmlValue)) :
    AmlValue × List (RString × AmlValue) :=
  let ctx := AmlExecutionContext.new scope ns
  let ctx := ctx.init_arg_vars parameters
  let ctx := interp m.term_list ctx
  let ctx := ctx.clean_namespace
  (match ctx.state with
   | ExecutionState.RETURN v => v
   | _ => AmlValue.IntegerConstant 0,
   ctx.namespace_objs)

/-- The context as the interpreter leaves it, before cleanup: shorthand
used to state the Method::execute theorems. -/
def midCtx (interp : Interp) (m : Method) (scope : RString)
    (parameters : List AmlValue) (ns : List (RString × AmlValue)) : AmlExecutionContext :=
  interp m.term_list ((AmlExecutionContext.new scope ns).init_arg_vars parameters)

/-- Sample interpreter that ends in an explicit return of Integer 42. -/
def interpRet : Interp :=
  fun _ ctx => { ctx with state := ExecutionState.RETURN (AmlValue.Integer 42) }

/-- Sample interpreter that leaves the context untouched (normal
fallthrough, no explicit return). -/
def interpId : Interp :=
  fun _ ctx => ctx

/-- Sample interpreter that declares one namespace object within the
method scope and records it in the delta, ending without a return. -/
def interpDeclare : Interp :=
  fun _ ctx =>
    { ctx with
      namespace_objs := (str "\\_SB.FOO", AmlValue.Integer 7) :: ctx.namespace_objs
      namespace_delta := [str "\\_SB.FOO"] }

/-- Sample method record used by the witnesses. -/
def sampleMethod : Method :=
  { arg_count := 0
    serialized := false
    sync_level := 0
    term_list := [] }

/-- Cleanup leaves the terminal state untouched. -/
theorem clean_namespace_state (ctx : AmlExecutionContext) :
    ctx.clean_namespace.state = ctx.state := rfl

/-- The value component of Method::execute is the match on the terminal
state of the context the interpreter left. -/
theorem method_execute_fst (interp : Interp) (m : Method) (scope : RString)
    (parameters : List AmlValue) (ns : List (RString × AmlValue)) :
    (Method.execute interp m scope parameters ns).1 =
      match (midCtx interp m scope parameters ns).state with
      | ExecutionState.RETURN v => v
      | _ => AmlValue.IntegerConstant 0 := rfl

/-- The namespace component of Method::execute is the cleaned namespace
of the context the interpreter left. -/
theorem method_execute_snd (interp : Interp) (m : Method) (scope : RString)
    (parameters : List AmlValue) (ns : List (RString × AmlValue)) :
    (Method.execute interp m scope parameters ns).2 =
      ((midCtx interp m scope parameters ns).clean_namespace).namespace_objs := rfl

/-- Searching for a deleted key in the filtered namespace finds nothing. -/
theorem find_filter_of_mem (l : List (RString × AmlValue)) (delta : List RString)
    (p : RString) (h : p ∈ delta) :
    (l.filter (fun e => !(decide (e.1 ∈ delta)))).find? (fun e => e.1 == p) = none := by
  induction l with
  | nil => rfl
  | cons a l ih =>
    rw [List.filter_cons]
    by_cases ha : a.1 ∈ delta
    · rw [if_neg (by simp [ha])]
      exact ih
    · have hne : (a.1 == p) = false := by
        rw [beq_eq_false_iff_ne]
        intro he
        exact ha (he ▸ h)
      rw [if_pos (by simp [ha]), List.find?_cons_of_neg _ (by simp [hne])]
      exact ih

/-- Searching for a key outside the deletion set is unaffected by the
filtering. -/
theorem find_filter_of_not_mem (l : List (RString × AmlValue)) (delta : List RString)
    (p : RString) (h : p ∉ delta) :
    (l.filter (fun e => !(decide (e.1 ∈ delta)))).find? (fun e => e.1 == p) =
      l.find? (fun e => e.1 == p) := by
  induction l with
  | nil => rfl
  | cons a l ih =>
    rw [List.filter_cons]
    by_cases hp : a.1 = p
    · have ha : a.1 ∉ delta := fun hmem => h (hp ▸ hmem)
      rw [if_pos (by simp [ha]), List.find?_cons_of_pos _ (by simp [hp]),
        List.find?_cons_of_pos _ (by simp [hp])]
    · have hne : (a.1 == p) = false := by rw [beq_eq_false_iff_ne]; exact hp
      by_cases ha : a.1 ∈ delta
      · rw [if_neg (by simp [ha]), List.find?_cons_of_neg _ (by simp [hne])]
        exact ih
      · rw [if_pos (by simp [ha]), List.find?_cons_of_neg _ (by simp [hne]),
          List.find?_cons_of_neg _ (by simp [hne])]
        exact ih

/-- Cleanup rewrites the namespace to its filtered form. -/
theorem clean_namespace_objs (ctx : AmlExecutionContext) :
    ctx.clean_namespace.namespace_objs =
      ctx.namespace_objs.filter (fun e => !(decide (e.1 ∈ ctx.namespace_delta))) := rfl

/-- Lookup after cleanup: deleted paths vanish, all others are exactly
as the interpretation left them. -/
theorem namespace_get_clean (ctx : AmlExecutionContext) (path : RString) :
    namespace_get ctx.clean_namespace.namespace_objs path =
      if path ∈ ctx.namespace_delta then none
      else namespace_get ctx.namespace_objs path := by
  by_cases h : path ∈ ctx.namespace_delta
  · rw [if_pos h, clean_namespace_objs]
    unfold namespace_get
    rw [find_filter_of_mem _ _ _ h]
    rfl
  · rw [if_neg h, clean_namespace_objs]
    unfold namespace_get
    rw [find_filter_of_not_mem _ _ _ h]

/-- With an empty current path the composition returns the modifier. -/
theorem gns_empty_current (m : RString) :
    get_namespace_string [] (AmlValue.String m) = m := by
  simp [get_namespace_string, AmlValue.get_as_string]

/-- With an empty string modifier the composition returns current. -/
theorem gns_empty_modifier (c : RString) :
    get_namespace_string c (AmlValue.String []) = c := by
  cases c <;> rfl

/-- A modifier beginning with the root marker replaces current. -/
theorem gns_root (c m : RString) (h : starts_with m (str "\\") = true) :
    get_namespace_string c (AmlValue.String m) = m := by
  cases c with
  | nil => exact gns_empty_current m
  | cons a t =>
    cases m with
    | nil => simp [starts_with, str] at h
    | cons b u => simp [get_namespace_string, AmlValue.get_as_string, h]

/-- In the fall-through case, current and modifier are joined with one
dot, omitted exactly when current already ends with the root marker. -/
theorem gns_join (c m : RString) (hc : c ≠ []) (hm : m ≠ [])
    (hroot : starts_with m (str "\\") = false) :
    get_namespace_string c (AmlValue.String m) =
      if ends_with c (str "\\") then c ++ m else c ++ str "." ++ m := by
  have hc0 : ¬(c.length = 0) := by simpa [List.length_eq_zero] using hc
  have hm0 : ¬(m.length = 0) := by simpa [List.length_eq_zero] using hm
  simp only [get_namespace_string, AmlValue.get_as_string, hc0, hm0, hroot,
    if_false, Bool.false_eq_true]
  cases hend : ends_with c (str "\\") <;> simp [hend, str]

/-- C1: for every interpreter behavior, method, scope and parameter
list, Method::execute yields v when the interpreter leaves the execution
context in the explicit-return terminal state carrying v, and yields
IntegerConstant 0 for every other terminal state. -/
theorem method_execute_result (interp : Interp) (m : Method) (scope : RString)
    (parameters : List AmlValue) (ns : List (RString × AmlValue)) :
    (∀ v, (midCtx interp m scope parameters ns).state = ExecutionState.RETURN v →
      (Method.execute interp m scope parameters ns).1 = v) ∧
    ((∀ v, (midCtx interp m scope parameters ns).state ≠ ExecutionState.RETURN v) →
      (Method.execute interp m scope parameters ns).1 = AmlValue.IntegerConstant 0) := by
  constructor
  · intro v hv
    rw [method_execute_fst, hv]
  · intro hnv
    rw [method_execute_fst]
    cases hs : (midCtx interp m scope parameters ns).state with
    | NORMAL => rfl
    | RETURN v => exact absurd hs (hnv v)
    | EXIT => rfl

/-- Witness for C1: a returning interpreter yields the returned value, a
fallthrough interpreter yields IntegerConstant 0. -/
theorem method_execute_result_witness :
    (Method.execute interpRet sampleMethod (str "\\") [] []).1 = AmlValue.Integer 42 ∧
    (Method.execute interpId sampleMethod (str "\\") [] []).1 = AmlValue.IntegerConstant 0 := by
  constructor
  · exact (method_execute_result interpRet sampleMethod (str "\\") [] []).1
      (AmlValue.Integer 42) rfl
  · exact (method_execute_result interpId sampleMethod (str "\\") [] []).2
      (fun v h => by simp [midCtx, interpId, AmlExecutionContext.new,
        AmlExecutionContext.init_arg_vars] at h)

/-- C2: the five specified path compositions, and the general rules:
empty current returns the modifier, empty modifier returns current, a
modifier beginning with the root marker replaces current, and otherwise
the two are joined with one dot, omitted exactly when current already
ends with the root marker. -/
theorem get_namespace_string_spec :
    (get_namespace_string (str "") (AmlValue.String (str "FOO")) = str "FOO" ∧
     get_namespace_string (str "\\_SB") (AmlValue.String (str "")) = str "\\_SB" ∧
     get_namespace_string (str "\\_SB") (AmlValue.String (str "\\_TZ")) = str "\\_TZ" ∧
     get_namespace_string (str "\\_SB") (AmlValue.String (str "PCI0")) = str "\\_SB.PCI0" ∧
     get_namespace_string (str "\\") (AmlValue.String (str "PCI0")) = str "\\PCI0") ∧
    (∀ m : RString, get_namespace_string [] (AmlValue.String m) = m) ∧
    (∀ c : RString, get_namespace_string c (AmlValue.String []) = c) ∧
    (∀ c m : RString, starts_with m (str "\\") = true →
      get_namespace_string c (AmlValue.String m) = m) ∧
    (∀ c m : RString, c ≠ [] → m ≠ [] → starts_with m (str "\\") = false →
      get_namespace_string c (AmlValue.String m) =
        if ends_with c (str "\\") then c ++ m else c ++ str "." ++ m) :=
  ⟨⟨rfl, rfl, rfl, rfl, rfl⟩, gns_empty_current, gns_empty_modifier, gns_root, gns_join⟩

/-- Witness for C2: the root-marker rule and the join rule instantiated
at concrete paths. -/
theorem get_namespace_string_spec_witness :
    get_namespace_string (str "\\_SB") (AmlValue.String (str "\\XYZ")) = str "\\XYZ" ∧
    get_namespace_string (str "A") (AmlValue.String (str "B")) = str "A.B" := by
  constructor
  · exact get_namespace_string_spec.2.2.2.1 (str "\\_SB") (str "\\XYZ") (by decide)
  · have h := get_namespace_string_spec.2.2.2.2 (str "A") (str "B")
      (by decide) (by decide) (by decide)
    rw [h]
    decide

/-- C3: get_as_string succeeds with s exactly on the String variant, and
returns the value-type-mismatch error on every other variant. -/
theorem get_as_string_variant_exact (v : AmlValue) :
    (∀ s, v.get_as_string = Except.ok s ↔ v = AmlValue.String s) ∧
    ((∀ s, v ≠ AmlValue.String s) →
      v.get_as_string = Except.error AmlError.AmlValueError) := by
  constructor
  · intro s
    cases v <;> simp [AmlValue.get_as_string]
  · intro h
    cases v <;> first | rfl | exact absurd rfl (h _)

/-- Witness for C3: the String variant narrows to its text and the
Integer variant fails with the type-mismatch error. -/
theorem get_as_string_variant_exact_witness :
    (AmlValue.String (str "AB")).get_as_string = Except.ok (str "AB") ∧
    (AmlValue.Integer 3).get_as_string = Except.error AmlError.AmlValueError := by
  constructor
  · exact ((get_as_string_variant_exact (AmlValue.String (str "AB"))).1 (str "AB")).mpr rfl
  · exact (get_as_string_variant_exact (AmlValue.Integer 3)).2 (fun s h => by simp at h)

/-- C4 (code bug): the parent-scope marker branch of the source is an
empty TODO, so no level is popped: at current \_SB.PCI0 and modifier
^FOO the code produces \_SB.PCI0.^FOO, not the \_SB.FOO that popping
one level per marker would give. -/
theorem get_namespace_string_caret_no_pop_eval :
    get_namespace_string (str "\\_SB.PCI0") (AmlValue.String (str "^FOO")) =
      str "\\_SB.PCI0.^FOO" ∧
    get_namespace_string (str "\\_SB.PCI0") (AmlValue.String (str "^FOO")) ≠
      str "\\_SB.FOO" := by
  constructor <;> decide

/-- C5: cleanup of the namespace objects declared within the method
scope happens unconditionally, for every interpreter behavior and every
terminal state: after execute, every path the interpretation recorded as
declared is absent, and every other path reads exactly as the
interpretation left it (the prior namespace plus the method explicit
effects). -/
theorem method_execute_namespace_frame (interp : Interp) (m : Method) (scope : RString)
    (parameters : List AmlValue) (ns : List (RString × AmlValue)) (path : RString) :
    (path ∈ (midCtx interp m scope parameters ns).namespace_delta →
      namespace_get (Method.execute interp m scope parameters ns).2 path = none) ∧
    (path ∉ (midCtx interp m scope parameters ns).namespace_delta →
      namespace_get (Method.execute interp m scope parameters ns).2 path =
        namespace_get (midCtx interp m scope parameters ns).namespace_objs path) := by
  constructor
  · intro hmem
    rw [method_execute_snd, namespace_get_clean, if_pos hmem]
  · intro hnot
    rw [method_execute_snd, namespace_get_clean, if_neg hnot]

/-- Witness for C5: after an interpreter that declares \_SB.FOO, the
declared object is gone while the pre-existing \_SB.BAR reads as the
interpretation left it. -/
theorem method_execute_namespace_frame_witness :
    (str "\\_SB.FOO") ∈ (midCtx interpDeclare sampleMethod (str "\\_SB") []
      [(str "\\_SB.BAR", AmlValue.Integer 1)]).namespace_delta ∧
    namespace_get (Method.execute interpDeclare sampleMethod (str "\\_SB") []
      [(str "\\_SB.BAR", AmlValue.Integer 1)]).2 (str "\\_SB.FOO") = none ∧
    (str "\\_SB.BAR") ∉ (midCtx interpDeclare sampleMethod (str "\\_SB") []
      [(str "\\_SB.BAR", AmlValue.Integer 1)]).namespace_delta ∧
    namespace_get (Method.execute interpDeclare sampleMethod (str "\\_SB") []
      [(str "\\_SB.BAR", AmlValue.Integer 1)]).2 (str "\\_SB.BAR") =
      namespace_get (midCtx interpDeclare sampleMethod (str "\\_SB") []
        [(str "\\_SB.BAR", AmlValue.Integer 1)]).namespace_objs (str "\\_SB.BAR") := by
  refine ⟨by decide, ?_, by decide, ?_⟩
  · exact (method_execute_namespace_frame interpDeclare sampleMethod (str "\\_SB") []
      [(str "\\_SB.BAR", AmlValue.Integer 1)] (str "\\_SB.FOO")).1 (by decide)
  · exact (method_execute_namespace_frame interpDeclare sampleMethod (str "\\_SB") []
      [(str "\\_SB.BAR", AmlValue.Integer 1)] (str "\\_SB.BAR")).2 (by decide)

/-- C6: path composition is total by construction, and a non-string
modifier returns current unchanged rather than surfacing an error. -/
theorem get_namespace_string_non_string_fallback (current : RString) (v : AmlValue)
    (h : ∀ s, v ≠ AmlValue.String s) :
    get_namespace_string current v = current := by
  cases v <;> first | rfl | exact absurd rfl (h _)

/-- Witness for C6: an integer modifier leaves current unchanged. -/
theorem get_namespace_string_non_string_fallback_witness :
    get_namespace_string (str "\\_SB") (AmlValue.Integer 5) = str "\\_SB" :=
  get_namespace_string_non_string_fallback (str "\\_SB") (AmlValue.Integer 5)
    (fun s h => by simp at h)

/-- C7: narrowing is variant-exact: get_as_integer accepts the
IntegerConstant variant and rejects the plain Integer variant with the
value-type-mismatch error. -/
theorem get_as_integer_variant_exact (n : Nat) :
    (AmlValue.IntegerConstant n).get_as_integer = Except.ok n ∧
    (AmlValue.Integer n).get_as_integer = Except.error AmlError.AmlValueError :=
  ⟨rfl, rfl⟩

/-- C8: package narrowing round-trips: narrowing Package p returns
exactly the sequence p. -/
theorem get_as_package_roundtrip (p : List AmlValue) :
    (AmlValue.Package p).get_as_package = Except.ok p := rfl

/-- C9: for a non-empty current and a non-empty modifier that begins
with parent-scope markers but not the root marker, the implementation
pops nothing: it joins current with the unmodified modifier, markers
included, the dot omitted when current ends with the root marker. -/
theorem get_namespace_string_caret_fallthrough (c m : RString)
    (hc : c ≠ []) (hm : m ≠ []) (hroot : starts_with m (str "\\") = false)
    (_hcaret : starts_with m (str "^") = true) :
    get_namespace_string c (AmlValue.String m) =
      if ends_with c (str "\\") then c ++ m else c ++ str "." ++ m :=
  gns_join c m hc hm hroot

/-- Witness for C9: the caret modifier ^FOO is appended verbatim. -/
theorem get_namespace_string_caret_fallthrough_witness :
    get_namespace_string (str "\\_SB") (AmlValue.String (str "^FOO")) =
      str "\\_SB.^FOO" := by
  have h := get_namespace_string_caret_fallthrough (str "\\_SB") (str "^FOO")
    (by decide) (by decide) (by decide) (by decide)
  rw [h]
  decide

/-- C10: the Clone impl for Accessor copies both operations, so the
copy reads identically to the original at every offset. -/
theorem accessor_clone_behavior (a : Accessor) :
    a.clone.read = a.read ∧ a.clone.write = a.write ∧
    (∀ offset, a.clone.read offset = a.read offset) :=
  ⟨rfl, rfl, fun _ => rfl⟩
